import Mathlib

/-!
Shallow embedding of the algorithmic core of the text-adventure repository
(src/text_game.py, src/text_gameV3.py): rarity tables and sampling, weapon
damage, combat turn resolution, save loading, and dungeon connectivity.
Definitions are translated directly from the Python source; theorems settle
the spec's claims about them.
-/

namespace TextAdventure

/-- The ordered weapon rarity enumeration (GameConstants.RARITY_ORDER).
`divine` is the ordinance tier. -/
inductive Rarity where
  | common
  | uncommon
  | rare
  | epic
  | legendary
  | mythic
  | divine
deriving DecidableEq, Repr

/-- Position of a rarity in GameConstants.RARITY_ORDER (list.index). -/
def rarityIdx : Rarity → ℤ
  | .common => 0
  | .uncommon => 1
  | .rare => 2
  | .epic => 3
  | .legendary => 4
  | .mythic => 5
  | .divine => 6

/-- The six non-ordinance tiers, in the insertion order of the `chances`
dict of WeaponSystem._calculate_rarity (text_game.py) and of
`rarity_chances` in WeaponSystem._calculate_rarity_by_level (text_gameV3.py),
which is also the order the cumulative sampling loop visits them. -/
def nonDivineOrder : List Rarity :=
  [.common, .uncommon, .rare, .epic, .legendary, .mythic]

/-- Baseline weight table of WeaponSystem._calculate_rarity (text_game.py).
`level` is the player level and `boost` is `boost_val = int(boost * 100)`
from the accumulated rarity boost (both nonnegative integers in the source,
so Python `//` is Nat division). `divine` is not a key of the Python dict;
it is given weight 0 here and excluded from all sums. -/
def baseChances (level boost : ℕ) : Rarity → ℤ
  | .common => max (55 - 2 * (level : ℤ) - boost) 15
  | .uncommon => min (25 + (level : ℤ)) 30
  | .rare => min (12 + ((level / 2 : ℕ) : ℤ) + ((boost / 4 : ℕ) : ℤ)) 20
  | .epic => min (6 + ((level / 4 : ℕ) : ℤ) + ((boost / 4 : ℕ) : ℤ)) 12
  | .legendary =>
      if 10 ≤ level then min (1 + ((level / 8 : ℕ) : ℤ) + ((boost / 5 : ℕ) : ℤ)) 5 else 0
  | .mythic =>
      if 15 ≤ level then min (1 + ((level / 12 : ℕ) : ℤ) + ((boost / 6 : ℕ) : ℤ)) 2 else 0
  | .divine => 0

/-- The equipped-weapon redistribution loop of WeaponSystem._calculate_rarity
(text_game.py): `boost_amount = int(BETTER_WEAPON_RARITY_BOOST * 100) = 15`;
tiers strictly above the equipped tier gain `15 // (idx gap)` (clamped at 40),
tiers strictly below lose `15 // 2 = 7` (clamped at 5); `divine` and
level-gated tiers below their gate are skipped. Each key's update depends
only on its own previous value, so the loop is a pointwise map. -/
def adjustedChances (level boost : ℕ) (equipped : Option Rarity) (r : Rarity) : ℤ :=
  match equipped with
  | none => baseChances level boost r
  | some e =>
      if r = .divine then baseChances level boost r
      else if (r = .legendary ∧ level < 10) ∨ (r = .mythic ∧ level < 15) then
        baseChances level boost r
      else if rarityIdx e < rarityIdx r then
        min (baseChances level boost r + 15 / (rarityIdx r - rarityIdx e)) 40
      else if rarityIdx r < rarityIdx e then max (baseChances level boost r - 7) 5
      else baseChances level boost r

/-- Sum of the adjusted weights over the six non-ordinance tiers
(`total = sum(chances.values())`). -/
def totalAdjusted (level boost : ℕ) (equipped : Option Rarity) : ℤ :=
  (nonDivineOrder.map (adjustedChances level boost equipped)).sum

/-- Final weight table at the moment sampling begins: if the total is not
100 the whole deficit/excess is added to `common`
(`chances['common'] += adjustment`). -/
def normalizedChances (level boost : ℕ) (equipped : Option Rarity) (r : Rarity) : ℤ :=
  if r = .common ∧ totalAdjusted level boost equipped ≠ 100 then
    adjustedChances level boost equipped r + (100 - totalAdjusted level boost equipped)
  else adjustedChances level boost equipped r

/-- Cumulative sampling loop shared by both drafts: walk the tiers in
`nonDivineOrder`, accumulate weights, return the first tier whose cumulative
weight reaches `rand`; fall back to `common`. -/
def sampleFrom (w : Rarity → ℤ) (rand : ℤ) : List Rarity → ℤ → Rarity
  | [], _ => .common
  | r :: rs, cum =>
      if rand ≤ cum + w r then r else sampleFrom w rand rs (cum + w r)

/-- The draw `rand = random.randint(1, 100)` resolved against the cumulative table. -/
def sampleRarity (w : Rarity → ℤ) (rand : ℤ) : Rarity :=
  sampleFrom w rand nonDivineOrder 0

/-- WeaponSystem._calculate_rarity (text_game.py, lines 1450-1497), as a
function of the player level, `int(boost*100)`, the equipped rarity, and
the uniform draw in [1,100]. -/
def calculateRarity (level boost : ℕ) (equipped : Option Rarity) (rand : ℤ) : Rarity :=
  sampleRarity (normalizedChances level boost equipped) rand

/-- Baseline weight table of WeaponSystem._calculate_rarity_by_level
(text_gameV3.py, lines 814-836). This draft has no equipped-weapon
redistribution and no level gates on legendary/mythic. -/
def baseChancesV3 (level boost : ℕ) : Rarity → ℤ
  | .common => max (50 - 3 * (level : ℤ) - boost) 10
  | .uncommon => min (25 + 2 * (level : ℤ)) 35
  | .rare => min (15 + (level : ℤ) + ((boost / 3 : ℕ) : ℤ)) 25
  | .epic => min (8 + ((level / 2 : ℕ) : ℤ) + ((boost / 3 : ℕ) : ℤ)) 15
  | .legendary => min (2 + ((level / 3 : ℕ) : ℤ) + ((boost / 3 : ℕ) : ℤ)) 8
  | .mythic => min (((level / 5 : ℕ) : ℤ) + ((boost / 3 : ℕ) : ℤ)) 2
  | .divine => 0

/-- Sum of the V3 weights over the six non-ordinance tiers. -/
def totalV3 (level boost : ℕ) : ℤ :=
  (nonDivineOrder.map (baseChancesV3 level boost)).sum

/-- V3 normalization: deficit/excess added to `common`, as in text_game.py. -/
def normalizedChancesV3 (level boost : ℕ) (r : Rarity) : ℤ :=
  if r = .common ∧ totalV3 level boost ≠ 100 then
    baseChancesV3 level boost r + (100 - totalV3 level boost)
  else baseChancesV3 level boost r

/-- WeaponSystem._calculate_rarity_by_level (text_gameV3.py) resolved
against the uniform draw in [1,100]. -/
def calculateRarityV3 (level boost : ℕ) (rand : ℤ) : Rarity :=
  sampleRarity (normalizedChancesV3 level boost) rand

/-- The `base_min` field of GameConstants.WEAPON_RARITIES. -/
def baseMin : Rarity → ℕ
  | .common => 8
  | .uncommon => 10
  | .rare => 12
  | .epic => 14
  | .legendary => 16
  | .mythic => 18
  | .divine => 100

/-- The `base_max` field of GameConstants.WEAPON_RARITIES. -/
def baseMax : Rarity → ℕ
  | .common => 12
  | .uncommon => 14
  | .rare => 16
  | .epic => 18
  | .legendary => 20
  | .mythic => 22
  | .divine => 100

/-- Ten times the `multiplier` of GameConstants.WEAPON_RARITIES
(1.0, 1.3, 1.6, 2.0, 2.5, 3.0, 999.0), kept integral. -/
def multTimes10 : Rarity → ℕ
  | .common => 10
  | .uncommon => 13
  | .rare => 16
  | .epic => 20
  | .legendary => 25
  | .mythic => 30
  | .divine => 9990

/-- The rarity damage multiplier as an exact rational. -/
def rarityMultiplier (r : Rarity) : ℚ :=
  (multTimes10 r : ℚ) / 10

/-- Damage assignment of WeaponSystem.generate_weapon (text_game.py, lines
1432-1436): `base_damage = randint(base_min, base_max) + level*2;
final_damage = int(base_damage * multiplier)`. `u` is the uniform draw in
[base_min r, base_max r]; Python `int()` truncates toward zero, which on
these nonnegative values is the floor. -/
def weaponDamage (r : Rarity) (level u : ℕ) : ℤ :=
  ⌊((u : ℚ) + level * 2) * rarityMultiplier r⌋

/-- Modelled from the spec: the spec's damage formula
`round((uniform(tier.base_min, tier.base_max) + level*2) * tier.multiplier)`,
with `round` as rounding to the nearest integer. Used only to compare the
spec's wording against `weaponDamage`. -/
def specWeaponDamageRound (r : Rarity) (level u : ℕ) : ℤ :=
  round (((u : ℚ) + level * 2) * rarityMultiplier r)

/-- A weapon as the fields of the generated weapon dict that combat reads:
base damage, rarity, the `special == 'instant_kill'` flag and the
`uses_remaining` counter of the ordinance (Golden Gun) weapon. -/
structure Weapon where
  damage : ℕ
  rarity : Rarity
  special : Bool
  usesRemaining : ℕ
deriving DecidableEq, Repr

/-- The player fields read and written by DamageCalculator.calculate_player_damage. -/
structure CombatPlayer where
  weapon : Option Weapon
  strength : ℕ
deriving DecidableEq, Repr

/-- Normal weapon damage: `int((base + strength_bonus) * multiplier)`. -/
def playerNormalDamage (w : Weapon) (strengthRoll : ℕ) : ℤ :=
  ⌊((w.damage : ℚ) + strengthRoll) * rarityMultiplier w.rarity⌋

/-- DamageCalculator.calculate_player_damage (text_game.py, lines 701-726)
and CombatSystem._calculate_player_damage (text_gameV3.py, lines 923-945),
which are the same computation. `fistRoll` is `randint(1,5)` for the unarmed
case and `strengthRoll` is `randint(1, strength // 3)`. Returns the damage
dealt and the updated player (the ordinance weapon consumes one use and
unequips itself when its uses reach zero). -/
def calculatePlayerDamage (p : CombatPlayer) (fistRoll strengthRoll : ℕ) :
    ℤ × CombatPlayer :=
  match p.weapon with
  | some w =>
      if w.special = true then
        if 0 < w.usesRemaining then
          let rem := w.usesRemaining - 1
          if rem = 0 then (99999, { p with weapon := none })
          else (99999, { p with weapon := some { w with usesRemaining := rem } })
        else (playerNormalDamage w strengthRoll, p)
      else (playerNormalDamage w strengthRoll, p)
  | none => ((fistRoll : ℤ), p)

/-- DamageCalculator.calculate_enemy_damage (text_game.py, lines 727-733):
`max(min_damage, base_damage - agility_defense)` where the minimum is
MIN_BOSS_DAMAGE = 5 for bosses and MIN_ENEMY_DAMAGE = 1 otherwise.
`agilityRoll` is `randint(1, agility // (2 if is_boss else 3))`. -/
def calculateEnemyDamage (baseDamage agilityRoll : ℤ) (isBoss : Bool) : ℤ :=
  max (if isBoss then 5 else 1) (baseDamage - agilityRoll)

/-- Which attack a boss used on a turn. -/
inductive BossAttackKind where
  | special
  | normal
deriving DecidableEq, Repr

/-- The boss half of one fight_boss loop iteration in text_game.py (lines
1678-1691), given the boss health `hpAfter` remaining after the player's
action this turn. The comparison `hp < max_hp * 0.5` on integers is exact
in binary floating point and equals `2 * hp < max_hp`;
BOSS_SPECIAL_TURN_FREQUENCY = 3, BOSS_DEFEND_REDUCTION = 2 and `//` is
Python floor division, embedded as `Int.fdiv`. -/
def bossPhase (dmg specialBonus maxHp hpAfter : ℤ) (turn : ℕ) (defend : Bool)
    (bonusRoll agilityRoll : ℤ) : BossAttackKind × ℤ :=
  if 2 * hpAfter < maxHp ∧ turn % 3 = 0 then
    let d := dmg + specialBonus
    (.special, if defend then Int.fdiv d 2 else d)
  else
    let d := calculateEnemyDamage (dmg + bonusRoll) agilityRoll true
    (.normal, if defend then Int.fdiv d 2 else d)

/-- The loop-local state of a boss encounter in CombatSystem.fight_boss. -/
structure BossTurnState where
  bossHp : ℤ
  bossMaxHp : ℤ
  playerHp : ℤ
  turn : ℕ
deriving DecidableEq, Repr

/-- One full loop iteration of CombatSystem.fight_boss (text_game.py) after
the player's action resolved to `playerDamage` and `defend`: the boss takes
the damage; if it survives it attacks (special or normal), the player takes
that damage, and the turn counter increments. Returns `none` when the boss
is defeated this turn (the loop breaks before any boss action). -/
def fightBossTurn (dmg specialBonus : ℤ) (s : BossTurnState) (playerDamage : ℤ)
    (defend : Bool) (bonusRoll agilityRoll : ℤ) :
    Option (BossAttackKind × ℤ × BossTurnState) :=
  let hp := s.bossHp - playerDamage
  if hp ≤ 0 then none
  else
    let res := bossPhase dmg specialBonus s.bossMaxHp hp s.turn defend bonusRoll agilityRoll
    some (res.1, res.2,
      { s with bossHp := hp, playerHp := s.playerHp - res.2, turn := s.turn + 1 })

/-- CombatSystem._boss_turn (text_gameV3.py, lines 1131-1157): same
special-attack trigger, but in the normal-attack branch the
`max(MIN_BOSS_DAMAGE, ...)` floor is applied only in the non-defending
branch; when defending the raw difference is halved without flooring. -/
def bossTurnV3 (dmg specialBonus maxHp hp : ℤ) (turn : ℕ) (defend : Bool)
    (bonusRoll agilityRoll : ℤ) : BossAttackKind × ℤ :=
  if 2 * hp < maxHp ∧ turn % 3 = 0 then
    let d := dmg + specialBonus
    (.special, if defend then Int.fdiv d 2 else d)
  else
    let d := dmg + bonusRoll - agilityRoll
    if defend then (.normal, Int.fdiv d 2)
    else (.normal, max 5 d)

/-- GameConstants.VERSION of text_game.py. -/
def gameVersion : String := "6.9.0"

/-- GameConstants.VERSION of text_gameV3.py. -/
def gameVersionV3 : String := "2.1.0"

/-- A parsed save document: the version tag plus an abstract payload `P`
standing for the full player/floors record. -/
structure SaveDoc (P : Type) where
  version : String
  player : P

/-- Outcome of a load: whether it reported success, the state taken from
the document (`none` = the session keeps its prior in-memory state), and
whether a version warning was printed. -/
structure LoadResult (P : Type) where
  success : Bool
  loadedPlayer : Option P
  versionWarning : Bool
deriving DecidableEq, Repr

/-- Game.load_game of text_game.py (lines 3076-3090): a version mismatch
only logs a warning ("may have issues"); the document is then loaded in
full and the load reports success. -/
def loadGame {P : Type} (doc : SaveDoc P) : LoadResult P :=
  { success := true,
    loadedPlayer := some doc.player,
    versionWarning := doc.version ≠ gameVersion }

/-- Game.load_game of text_gameV3.py (lines 1756-1765): a version mismatch
returns False before any state is read from the document ("Starting new
game instead"). -/
def loadGameV3 {P : Type} (doc : SaveDoc P) : LoadResult P :=
  if doc.version ≠ gameVersionV3 then
    { success := false, loadedPlayer := none, versionWarning := true }
  else
    { success := true, loadedPlayer := some doc.player, versionWarning := false }

/-- A healing amount from GameConstants.HEALING_ITEMS: either the string
'full' or a numeric amount. -/
inductive HealSpec where
  | full
  | amount (n : ℕ)
deriving DecidableEq, Repr

/-- The `type` tag of a healing item. -/
inductive EffectType where
  | health
  | mana
deriving DecidableEq, Repr

/-- One entry of GameConstants.HEALING_ITEMS. -/
structure HealingEffect where
  etype : EffectType
  heal : HealSpec
deriving DecidableEq, Repr

/-- GameConstants.HEALING_ITEMS (identical in both drafts). -/
def healingItems : List (String × HealingEffect) :=
  [("health potion", ⟨.health, .amount 30⟩),
   ("ultimate health potion", ⟨.health, .full⟩),
   ("magic scroll", ⟨.mana, .amount 25⟩),
   ("ice crystal", ⟨.mana, .amount 50⟩),
   ("energy drink", ⟨.health, .amount 20⟩),
   ("vitality tonic", ⟨.health, .amount 35⟩),
   ("elixir of life", ⟨.health, .amount 50⟩)]

/-- The vitals fields read and written when a healing item is consumed. -/
structure PlayerVitals where
  health : ℤ
  maxHealth : ℤ
  mana : ℤ
  maxMana : ℤ
deriving DecidableEq, Repr

/-- The healing branch of ItemHandler._apply_effect (text_game.py, lines
667-682) and Player._apply_healing_effect (text_gameV3.py, lines 449-464),
which are the same computation: 'full' sets health to max_health, a numeric
health amount adds `min(heal, max_health - health)`, a numeric mana amount
adds `min(heal, max_mana - mana)`. A 'full' mana item would raise a
TypeError in Python (`min` of str and int), embedded as `none`; no item of
HEALING_ITEMS hits that case. -/
def applyHealingEffect (p : PlayerVitals) (e : HealingEffect) : Option PlayerVitals :=
  match e.etype, e.heal with
  | .health, .full => some { p with health := p.maxHealth }
  | .health, .amount n => some { p with health := p.health + min (n : ℤ) (p.maxHealth - p.health) }
  | .mana, .amount n => some { p with mana := p.mana + min (n : ℤ) (p.maxMana - p.mana) }
  | .mana, .full => none

/-- Room identifiers, abstracted to naturals (the source uses string keys). -/
abbrev RoomId := ℕ

/-- The four cardinal exit directions used by the generators. -/
inductive Dir where
  | north
  | south
  | east
  | west
deriving DecidableEq, Repr

/-- The `reverse` direction table of both generators. -/
def reverseDir : Dir → Dir
  | .north => .south
  | .south => .north
  | .east => .west
  | .west => .east

/-- The `directions` list of both generators. -/
def allDirs : List Dir := [.north, .south, .east, .west]

/-- The exit maps of all rooms of a floor: `exits a d = some b` when room
`a` has an exit in direction `d` to room `b`. -/
def ExitMap : Type := RoomId → Dir → Option RoomId

/-- Record one directed exit (`rooms[a].exits[d] = b`). -/
def addExit (m : ExitMap) (a : RoomId) (d : Dir) (b : RoomId) : ExitMap :=
  fun x dd => if x = a ∧ dd = d then some b else m x dd

/-- The loop state of Game._connect_rooms (text_game.py, lines 2136-2158):
the exit maps built so far and the connected / not-yet-connected room sets
(as lists, standing for `list(connected)` / `list(unconnected)`). -/
structure ConnectState where
  exits : ExitMap
  connected : List RoomId
  unconnected : List RoomId

/-- The connected room picked by `random.choice(list(connected))`, resolved
by the draw index `cIdx`. -/
def chosenCurrent (s : ConnectState) (cIdx : ℕ) : RoomId :=
  s.connected.getD (cIdx % s.connected.length) 0

/-- The unconnected room picked by `random.choice(list(unconnected))`,
resolved by the draw index `tIdx`. -/
def chosenTarget (s : ConnectState) (tIdx : ℕ) : RoomId :=
  s.unconnected.getD (tIdx % s.unconnected.length) 0

/-- The list `available = [d for d in directions if d not in rooms[current].exits]`. -/
def availDirs (s : ConnectState) (cIdx : ℕ) : List Dir :=
  allDirs.filter fun d => s.exits (chosenCurrent s cIdx) d = none

/-- The free direction picked by `random.choice(available)`, resolved by the
draw index `dIdx` (meaningful only when `availDirs` is nonempty). -/
def chosenDir (s : ConnectState) (cIdx dIdx : ℕ) : Dir :=
  (availDirs s cIdx).getD (dIdx % (availDirs s cIdx).length) .north

/-- One iteration of the spanning loop of Game._connect_rooms (text_game.py)
and, up to the order draws are consumed, of the while-loop of
Game._generate_random_layout (text_gameV3.py): pick a connected room, pick
an unconnected room, and if the connected room has a free direction, link
the two bidirectionally and move the target to the connected set; if the
connected room has no free direction the iteration changes nothing
(text_game.py `continue`; text_gameV3.py adds the popped room back). The
first guard is vacuous in situ: the loop only runs while `unconnected` is
nonempty. -/
def connectStep (s : ConnectState) (cIdx tIdx dIdx : ℕ) : ConnectState :=
  if s.unconnected = [] ∨ availDirs s cIdx = [] then s
  else
    { exits := addExit (addExit s.exits (chosenCurrent s cIdx) (chosenDir s cIdx dIdx)
                 (chosenTarget s tIdx))
                 (chosenTarget s tIdx) (reverseDir (chosenDir s cIdx dIdx)) (chosenCurrent s cIdx),
      connected := s.connected ++ [chosenTarget s tIdx],
      unconnected := s.unconnected.erase (chosenTarget s tIdx) }

/-- The spanning loop `while unconnected:` run under an explicit draw
oracle, with fuel: returns the final state when the unconnected set is
exhausted, `none` when the fuel runs out first. -/
def connectRun (oracle : ℕ → ℕ × ℕ × ℕ) : ℕ → ConnectState → Option ConnectState
  | 0, s => if s.unconnected = [] then some s else none
  | fuel + 1, s =>
      if s.unconnected = [] then some s
      else connectRun oracle fuel
        (connectStep s (oracle fuel).1 (oracle fuel).2.1 (oracle fuel).2.2)

/-- The state Game._connect_rooms starts from: no exits, the entrance alone
connected, every other room unconnected. -/
def initConnectState (roomList : List RoomId) (start : RoomId) : ConnectState :=
  { exits := fun _ _ => none,
    connected := [start],
    unconnected := roomList.erase start }

/-- Free directions of `r1` in the extra-edge loop. -/
def extraAvail (m : ExitMap) (r1 : RoomId) : List Dir :=
  allDirs.filter fun d => m r1 d = none

/-- The direction picked among them, resolved by the draw index `dIdx`. -/
def extraDir (m : ExitMap) (r1 : RoomId) (dIdx : ℕ) : Dir :=
  (extraAvail m r1).getD (dIdx % (extraAvail m r1).length) .north

/-- One iteration of the extra-edge loop of Game._connect_rooms
(text_game.py, lines 2159-2168): given a sampled pair `(r1, r2)`, skip it
if `r2` is already a value of `r1`'s exits, otherwise link them through a
free direction of `r1` whose reverse is also free on `r2`; if no valid slot
exists the edge is skipped. -/
def extraEdgeStep (m : ExitMap) (r1 r2 : RoomId) (dIdx : ℕ) : ExitMap :=
  if (∀ d ∈ allDirs, m r1 d ≠ some r2) ∧ extraAvail m r1 ≠ [] ∧
      m r2 (reverseDir (extraDir m r1 dIdx)) = none then
    addExit (addExit m r1 (extraDir m r1 dIdx) r2) r2 (reverseDir (extraDir m r1 dIdx)) r1
  else m

/-- The whole extra-edge loop, over the sequence of sampled pairs and
direction draws. -/
def applyExtraEdges (m : ExitMap) : List (RoomId × RoomId × ℕ) → ExitMap
  | [] => m
  | (r1, r2, dIdx) :: rest => applyExtraEdges (extraEdgeStep m r1 r2 dIdx) rest

/-- Room `r` is reachable from `start` by following some sequence of exits. -/
inductive Reach (m : ExitMap) (start : RoomId) : RoomId → Prop
  | refl : Reach m start start
  | step {a b : RoomId} (d : Dir) : Reach m start a → m a d = some b → Reach m start b

/-- Map `m'` keeps every exit of `m` (it may add more). -/
def ExitIncl (m m' : ExitMap) : Prop :=
  ∀ a d b, m a d = some b → m' a d = some b

/-- The invariant of the spanning loop: the connected list is nonempty,
every connected room is reachable from the entrance, unconnected rooms
carry no exits yet, the two lists are disjoint, and the unconnected list
has no duplicates. -/
structure ConnInv (start : RoomId) (s : ConnectState) : Prop where
  connected_ne : s.connected ≠ []
  reach : ∀ r ∈ s.connected, Reach s.exits start r
  fresh : ∀ u ∈ s.unconnected, ∀ d, s.exits u d = none
  disj : ∀ r ∈ s.connected, r ∉ s.unconnected
  nodup : s.unconnected.Nodup

theorem getD_mod_mem {α : Type} (l : List α) (i : ℕ) (d : α) (h : l ≠ []) :
    l.getD (i % l.length) d ∈ l := by
  have hlen : 0 < l.length := List.length_pos.2 h
  have hm : i % l.length < l.length := Nat.mod_lt _ hlen
  rw [List.getD_eq_getElem l d hm]
  exact List.getElem_mem hm

theorem reverseDir_ne (d : Dir) : reverseDir d ≠ d := by
  cases d <;> simp [reverseDir]

theorem exitIncl_refl (m : ExitMap) : ExitIncl m m := fun _ _ _ h => h

theorem exitIncl_trans {m1 m2 m3 : ExitMap} (h1 : ExitIncl m1 m2)
    (h2 : ExitIncl m2 m3) : ExitIncl m1 m3 :=
  fun a d b h => h2 a d b (h1 a d b h)

theorem addExit_self (m : ExitMap) (a : RoomId) (d : Dir) (b : RoomId) :
    addExit m a d b a d = some b := by
  unfold addExit
  simp

theorem addExit_other {m : ExitMap} {a : RoomId} {d : Dir} {b : RoomId}
    (x : RoomId) (dd : Dir) (h : ¬(x = a ∧ dd = d)) :
    addExit m a d b x dd = m x dd := by
  unfold addExit
  simp [h]

theorem addExit_incl {m : ExitMap} {a : RoomId} {d : Dir} {b : RoomId}
    (h : m a d = none) : ExitIncl m (addExit m a d b) := by
  intro x dd y hx
  unfold addExit
  split
  · next hc =>
      obtain ⟨rfl, rfl⟩ := hc
      rw [h] at hx
      cases hx
  · exact hx

theorem reach_mono {m m' : ExitMap} {start r : RoomId} (hIncl : ExitIncl m m')
    (h : Reach m start r) : Reach m' start r := by
  induction h with
  | refl => exact .refl
  | step d _ hm ih => exact .step d ih (hIncl _ _ _ hm)

theorem connectStep_spec (start : RoomId) (s : ConnectState) (cIdx tIdx dIdx : ℕ)
    (h : ConnInv start s) :
    ConnInv start (connectStep s cIdx tIdx dIdx) ∧
      ExitIncl s.exits (connectStep s cIdx tIdx dIdx).exits ∧
      ∀ r, (r ∈ s.connected ∨ r ∈ s.unconnected) →
        (r ∈ (connectStep s cIdx tIdx dIdx).connected ∨
          r ∈ (connectStep s cIdx tIdx dIdx).unconnected) := by
  obtain ⟨hne, hreach, hfresh, hdisj, hnd⟩ := h
  unfold connectStep
  split
  · exact ⟨⟨hne, hreach, hfresh, hdisj, hnd⟩, exitIncl_refl _, fun r hr => hr⟩
  · next hguard =>
    push_neg at hguard
    obtain ⟨hune, havail⟩ := hguard
    have hcur_mem : chosenCurrent s cIdx ∈ s.connected := getD_mod_mem _ _ _ hne
    have htgt_mem : chosenTarget s tIdx ∈ s.unconnected := getD_mod_mem _ _ _ hune
    have hd_mem : chosenDir s cIdx dIdx ∈ availDirs s cIdx := getD_mod_mem _ _ _ havail
    have hd_none : s.exits (chosenCurrent s cIdx) (chosenDir s cIdx dIdx) = none := by
      have := (List.mem_filter.1 hd_mem).2
      simpa using this
    have hrev_ne : reverseDir (chosenDir s cIdx dIdx) ≠ chosenDir s cIdx dIdx :=
      reverseDir_ne _
    have htgt_fresh : ∀ dd, s.exits (chosenTarget s tIdx) dd = none :=
      hfresh _ htgt_mem
    have htgt_ne_cur : chosenTarget s tIdx ≠ chosenCurrent s cIdx := by
      intro he
      exact hdisj _ hcur_mem (he ▸ htgt_mem)
    have hmid : addExit s.exits (chosenCurrent s cIdx) (chosenDir s cIdx dIdx)
        (chosenTarget s tIdx) (chosenTarget s tIdx) (reverseDir (chosenDir s cIdx dIdx)) = none := by
      rw [addExit_other]
      · exact htgt_fresh _
      · rintro ⟨_, h2⟩
        exact hrev_ne h2
    have hincl : ExitIncl s.exits
        (addExit (addExit s.exits (chosenCurrent s cIdx) (chosenDir s cIdx dIdx)
          (chosenTarget s tIdx))
          (chosenTarget s tIdx) (reverseDir (chosenDir s cIdx dIdx)) (chosenCurrent s cIdx)) :=
      exitIncl_trans (addExit_incl hd_none) (addExit_incl hmid)
    have hlink : (addExit (addExit s.exits (chosenCurrent s cIdx) (chosenDir s cIdx dIdx)
        (chosenTarget s tIdx))
        (chosenTarget s tIdx) (reverseDir (chosenDir s cIdx dIdx)) (chosenCurrent s cIdx))
        (chosenCurrent s cIdx) (chosenDir s cIdx dIdx) = some (chosenTarget s tIdx) := by
      rw [addExit_other]
      · exact addExit_self _ _ _ _
      · rintro ⟨h1, h2⟩
        exact hrev_ne h2.symm
    refine ⟨⟨by simp, ?_, ?_, ?_, hnd.erase _⟩, hincl, ?_⟩
    · intro r hr
      rcases List.mem_append.1 hr with hr | hr
      · exact reach_mono hincl (hreach r hr)
      · have : r = chosenTarget s tIdx := by simpa using hr
        subst this
        exact .step _ (reach_mono hincl (hreach _ hcur_mem)) hlink
    · intro u hu dd
      have hu' : u ∈ s.unconnected := List.mem_of_mem_erase hu
      have hu_ne_tgt : u ≠ chosenTarget s tIdx := (hnd.mem_erase_iff.1 hu).1
      have hu_ne_cur : u ≠ chosenCurrent s cIdx := by
        intro he
        exact hdisj _ hcur_mem (he ▸ hu')
      show addExit _ _ _ _ u dd = none
      rw [addExit_other, addExit_other]
      · exact hfresh u hu' dd
      · rintro ⟨h1, _⟩
        exact hu_ne_cur h1
      · rintro ⟨h1, _⟩
        exact hu_ne_tgt h1
    · intro r hr hmem
      rcases List.mem_append.1 hr with hr | hr
      · exact hdisj r hr (List.mem_of_mem_erase hmem)
      · have : r = chosenTarget s tIdx := by simpa using hr
        subst this
        exact (hnd.mem_erase_iff.1 hmem).1 rfl
    · intro r hr
      rcases hr with hr | hr
      · exact Or.inl (List.mem_append_left _ hr)
      · by_cases hrt : r = chosenTarget s tIdx
        · subst hrt
          exact Or.inl (List.mem_append_right _ (by simp))
        · exact Or.inr ((List.mem_erase_of_ne hrt).2 hr)

theorem connectRun_spec (start : RoomId) (oracle : ℕ → ℕ × ℕ × ℕ) :
    ∀ (fuel : ℕ) (s s' : ConnectState), ConnInv start s →
      connectRun oracle fuel s = some s' →
      ConnInv start s' ∧ s'.unconnected = [] ∧
        (∀ r, (r ∈ s.connected ∨ r ∈ s.unconnected) → r ∈ s'.connected) := by
  intro fuel
  induction fuel with
  | zero =>
    intro s s' hinv hrun
    unfold connectRun at hrun
    split at hrun
    · next hemp =>
      cases hrun
      refine ⟨hinv, hemp, fun r hr => ?_⟩
      rcases hr with hr | hr
      · exact hr
      · rw [hemp] at hr
        cases hr
    · cases hrun
  | succ n ih =>
    intro s s' hinv hrun
    unfold connectRun at hrun
    split at hrun
    · next hemp =>
      cases hrun
      refine ⟨hinv, hemp, fun r hr => ?_⟩
      rcases hr with hr | hr
      · exact hr
      · rw [hemp] at hr
        cases hr
    · obtain ⟨hinv', _, hcov'⟩ := connectStep_spec start s (oracle n).1 (oracle n).2.1
        (oracle n).2.2 hinv
      obtain ⟨hi, he, hcov2⟩ := ih _ s' hinv' hrun
      exact ⟨hi, he, fun r hr => hcov2 r (hcov' r hr)⟩

theorem connectRun_incl (start : RoomId) (oracle : ℕ → ℕ × ℕ × ℕ) :
    ∀ (fuel : ℕ) (s s' : ConnectState), ConnInv start s →
      connectRun oracle fuel s = some s' → ExitIncl s.exits s'.exits := by
  intro fuel
  induction fuel with
  | zero =>
    intro s s' _ hrun
    unfold connectRun at hrun
    split at hrun
    · cases hrun
      exact exitIncl_refl _
    · cases hrun
  | succ n ih =>
    intro s s' hinv hrun
    unfold connectRun at hrun
    split at hrun
    · cases hrun
      exact exitIncl_refl _
    · obtain ⟨hinv', hincl', _⟩ := connectStep_spec start s (oracle n).1 (oracle n).2.1
        (oracle n).2.2 hinv
      exact exitIncl_trans hincl' (ih _ s' hinv' hrun)

theorem extraEdgeStep_incl (m : ExitMap) (r1 r2 : RoomId) (dIdx : ℕ) :
    ExitIncl m (extraEdgeStep m r1 r2 dIdx) := by
  unfold extraEdgeStep
  split
  · next hguard =>
    obtain ⟨_, hav, hrev⟩ := hguard
    have hd_mem : extraDir m r1 dIdx ∈ extraAvail m r1 := getD_mod_mem _ _ _ hav
    have hd_none : m r1 (extraDir m r1 dIdx) = none := by
      have := (List.mem_filter.1 hd_mem).2
      simpa using this
    have hmid : addExit m r1 (extraDir m r1 dIdx) r2 r2 (reverseDir (extraDir m r1 dIdx)) = none := by
      rw [addExit_other]
      · exact hrev
      · rintro ⟨_, h2⟩
        exact reverseDir_ne _ h2
    exact exitIncl_trans (addExit_incl hd_none) (addExit_incl hmid)
  · exact exitIncl_refl _

theorem applyExtraEdges_incl (m : ExitMap) (es : List (RoomId × RoomId × ℕ)) :
    ExitIncl m (applyExtraEdges m es) := by
  induction es generalizing m with
  | nil => exact exitIncl_refl _
  | cons e rest ih =>
    obtain ⟨r1, r2, dIdx⟩ := e
    exact exitIncl_trans (extraEdgeStep_incl m r1 r2 dIdx) (ih _)

theorem bossPhase_fst_special_iff (dmg specialBonus maxHp hpAfter : ℤ) (turn : ℕ)
    (defend : Bool) (bonusRoll agilityRoll : ℤ) :
    (bossPhase dmg specialBonus maxHp hpAfter turn defend bonusRoll agilityRoll).1 =
        .special ↔ (2 * hpAfter < maxHp ∧ turn % 3 = 0) := by
  unfold bossPhase
  split
  · next hc => simpa using hc
  · next hc => simpa using hc

/-- Claim C1: in a boss encounter, on every turn on which the boss acts at
all, it uses its special attack if and only if its current health (after
the player's action this turn) is strictly below half its maximum health
and the turn number is divisible by 3; on every other such turn it uses its
normal attack. Stated for the fight_boss loop of text_game.py and for
CombatSystem._boss_turn of text_gameV3.py, over every combat state. -/
theorem boss_special_attack_iff :
    (∀ (dmg specialBonus : ℤ) (s : BossTurnState) (playerDamage : ℤ) (defend : Bool)
        (bonusRoll agilityRoll : ℤ) (kind : BossAttackKind) (bossDmg : ℤ)
        (s' : BossTurnState),
      fightBossTurn dmg specialBonus s playerDamage defend bonusRoll agilityRoll =
          some (kind, bossDmg, s') →
      (kind = .special ↔ (2 * (s.bossHp - playerDamage) < s.bossMaxHp ∧ s.turn % 3 = 0))) ∧
    (∀ (dmg specialBonus maxHp hp : ℤ) (turn : ℕ) (defend : Bool)
        (bonusRoll agilityRoll : ℤ),
      (bossTurnV3 dmg specialBonus maxHp hp turn defend bonusRoll agilityRoll).1 =
          .special ↔ (2 * hp < maxHp ∧ turn % 3 = 0)) := by
  constructor
  · intro dmg specialBonus s playerDamage defend bonusRoll agilityRoll kind bossDmg s' h
    unfold fightBossTurn at h
    dsimp only at h
    split at h
    · cases h
    · simp only [Option.some.injEq, Prod.mk.injEq] at h
      obtain ⟨hk, _, _⟩ := h
      subst hk
      exact bossPhase_fst_special_iff dmg specialBonus s.bossMaxHp
        (s.bossHp - playerDamage) s.turn defend bonusRoll agilityRoll
  · intro dmg specialBonus maxHp hp turn defend bonusRoll agilityRoll
    unfold bossTurnV3
    split
    · next hc =>
      constructor
      · intro _
        exact hc
      · intro _
        rfl
    · next hc =>
      constructor
      · intro hk
        split at hk <;> cases hk
      · intro hcond
        exact absurd hcond hc

/-- Witness for C1 at a concrete combat state: boss at 100/200 health, the
player deals 10 on turn 3, so the boss at 90 < 100 on a multiple-of-3 turn
uses its special attack. -/
theorem boss_special_attack_iff_witness :
    BossAttackKind.special = BossAttackKind.special ↔
      (2 * ((100 : ℤ) - 10) < 200 ∧ 3 % 3 = 0) :=
  boss_special_attack_iff.1 20 15 ⟨100, 200, 50, 3⟩ 10 false 5 3 .special 35
    ⟨90, 200, 15, 4⟩ rfl

/-- Claim C2: whenever the spanning loop of the floor generator finishes
(for any room list, any entrance, any draw sequence, and afterwards any
extra-edge draws), every room of the floor is reachable from the entrance
by following some sequence of exits. -/
theorem generated_floor_connectivity (roomList : List RoomId) (start : RoomId)
    (oracle : ℕ → ℕ × ℕ × ℕ) (fuel : ℕ) (s' : ConnectState)
    (extras : List (RoomId × RoomId × ℕ))
    (hnd : roomList.Nodup) (hstart : start ∈ roomList)
    (hrun : connectRun oracle fuel (initConnectState roomList start) = some s') :
    ∀ r ∈ roomList, Reach (applyExtraEdges s'.exits extras) start r := by
  have hinv0 : ConnInv start (initConnectState roomList start) := by
    refine ⟨by simp [initConnectState], ?_, ?_, ?_, ?_⟩
    · intro r hr
      simp [initConnectState] at hr
      subst hr
      exact .refl
    · intro u _ dd
      rfl
    · intro r hr
      simp [initConnectState] at hr
      subst hr
      intro hc
      exact (hnd.mem_erase_iff.1 hc).1 rfl
    · exact hnd.erase start
  obtain ⟨hinv, _, hcov⟩ := connectRun_spec start oracle fuel _ s' hinv0 hrun
  intro r hr
  have hrc : r ∈ s'.connected := by
    apply hcov
    by_cases hrs : r = start
    · left
      simp [initConnectState, hrs]
    · right
      simp only [initConnectState]
      exact (List.mem_erase_of_ne hrs).2 hr
  exact reach_mono (applyExtraEdges_incl _ _) (hinv.reach r hrc)

/-- Witness for C2: a two-room floor connected by one draw; room 1 is
reachable from the entrance 0 in the finished layout. -/
theorem generated_floor_connectivity_witness :
    Reach (applyExtraEdges (Option.getD
        (connectRun (fun _ => (0, 0, 0)) 2 (initConnectState [0, 1] 0))
        { exits := fun _ _ => none, connected := [], unconnected := [] }).exits []) 0 1 :=
  generated_floor_connectivity [0, 1] 0 (fun _ => (0, 0, 0)) 2
    (Option.getD (connectRun (fun _ => (0, 0, 0)) 2 (initConnectState [0, 1] 0))
      { exits := fun _ _ => none, connected := [], unconnected := [] }) []
    (by decide) (by decide) rfl 1 (by decide)

/-- Claim C5 (amended): each iteration of the connection loop either
strictly shrinks the unconnected set (whenever the chosen connected room
has a free direction) or returns the state unchanged (when it has none);
the unconnected set never grows, but an iteration need not shrink it. -/
theorem connect_step_shrinks_or_stalls (s : ConnectState) (cIdx tIdx dIdx : ℕ) :
    connectStep s cIdx tIdx dIdx = s ∨
      (connectStep s cIdx tIdx dIdx).unconnected.length < s.unconnected.length := by
  unfold connectStep
  split
  · exact Or.inl rfl
  · next hguard =>
    push_neg at hguard
    right
    have htgt_mem : chosenTarget s tIdx ∈ s.unconnected := getD_mod_mem _ _ _ hguard.1
    have hpos : 0 < s.unconnected.length := List.length_pos.2 hguard.1
    show (s.unconnected.erase (chosenTarget s tIdx)).length < s.unconnected.length
    rw [List.length_erase_of_mem htgt_mem]
    omega

/-- Counterexample to C5 as stated: after four draws that attach rooms 1-4
to all four exits of the entrance 0, the fifth iteration picks the now-full
entrance again and leaves the state - in particular the unconnected set,
still holding room 5 - completely unchanged. -/
theorem connect_step_stalls_counterexample :
    connectStep (connectStep (connectStep (connectStep (connectStep
        (initConnectState [0, 1, 2, 3, 4, 5] 0) 0 0 0) 0 0 0) 0 0 0) 0 0 0) 0 0 0 =
      connectStep (connectStep (connectStep (connectStep
        (initConnectState [0, 1, 2, 3, 4, 5] 0) 0 0 0) 0 0 0) 0 0 0) 0 0 0 ∧
    (connectStep (connectStep (connectStep (connectStep
        (initConnectState [0, 1, 2, 3, 4, 5] 0) 0 0 0) 0 0 0) 0 0 0) 0 0 0).unconnected ≠ [] := by
  constructor
  · rfl
  · decide

/-- Claim C3: for every (level, boost, equipped-tier) input, the weight
table over the six non-ordinance tiers sums to exactly 100 at the moment
sampling begins, the whole deficit/excess having been added to the lowest
(common) tier: every other tier keeps its adjusted weight. Stated for both
WeaponSystem._calculate_rarity (text_game.py) and
WeaponSystem._calculate_rarity_by_level (text_gameV3.py). -/
theorem rarity_weights_sum_100 (level boost : ℕ) (equipped : Option Rarity) :
    (nonDivineOrder.map (normalizedChances level boost equipped)).sum = 100 ∧
    (nonDivineOrder.map (normalizedChancesV3 level boost)).sum = 100 ∧
    (∀ r, r ≠ .common →
      normalizedChances level boost equipped r = adjustedChances level boost equipped r) ∧
    (∀ r, r ≠ .common → normalizedChancesV3 level boost r = baseChancesV3 level boost r) := by
  refine ⟨?_, ?_, ?_, ?_⟩
  · have ht : totalAdjusted level boost equipped =
        (nonDivineOrder.map (adjustedChances level boost equipped)).sum := rfl
    simp only [nonDivineOrder, List.map_cons, List.map_nil, List.sum_cons, List.sum_nil,
      normalizedChances] at ht ⊢
    split_ifs <;> simp_all <;> omega
  · have ht : totalV3 level boost = (nonDivineOrder.map (baseChancesV3 level boost)).sum := rfl
    simp only [nonDivineOrder, List.map_cons, List.map_nil, List.sum_cons, List.sum_nil,
      normalizedChancesV3] at ht ⊢
    split_ifs <;> simp_all <;> omega
  · intro r hr
    unfold normalizedChances
    simp [hr]
  · intro r hr
    unfold normalizedChancesV3
    simp [hr]

theorem sampleFrom_zero_not_selected (w : Rarity → ℤ) (rand : ℤ) (t : Rarity)
    (hz : w t = 0) (ht : t ≠ .common) :
    ∀ (l : List Rarity) (cum : ℤ), ¬ rand ≤ cum → sampleFrom w rand l cum ≠ t := by
  intro l
  induction l with
  | nil =>
    intro cum _
    unfold sampleFrom
    exact fun h => ht h.symm
  | cons r rs ih =>
    intro cum hprev
    unfold sampleFrom
    split_ifs with hsel
    · intro h
      subst h
      rw [hz] at hsel
      omega
    · exact ih _ hsel

theorem sample_not_gated (w : Rarity → ℤ) (rand : ℤ) (hrand : 0 < rand)
    (hl : w .legendary = 0) (hm : w .mythic = 0) :
    sampleRarity w rand ≠ .legendary ∧ sampleRarity w rand ≠ .mythic := by
  have h0 : ¬ rand ≤ (0 : ℤ) := by omega
  exact ⟨sampleFrom_zero_not_selected w rand .legendary hl (by simp) nonDivineOrder 0 h0,
    sampleFrom_zero_not_selected w rand .mythic hm (by simp) nonDivineOrder 0 h0⟩

theorem adjusted_legendary_zero (level boost : ℕ) (equipped : Option Rarity)
    (h10 : level < 10) : adjustedChances level boost equipped .legendary = 0 := by
  have hb : baseChances level boost .legendary = 0 := by
    simp only [baseChances]
    rw [if_neg (by omega)]
  cases equipped with
  | none => simpa [adjustedChances] using hb
  | some e =>
    simp only [adjustedChances]
    split_ifs <;> simp_all

theorem adjusted_mythic_zero (level boost : ℕ) (equipped : Option Rarity)
    (h15 : level < 15) : adjustedChances level boost equipped .mythic = 0 := by
  have hb : baseChances level boost .mythic = 0 := by
    simp only [baseChances]
    rw [if_neg (by omega)]
  cases equipped with
  | none => simpa [adjustedChances] using hb
  | some e =>
    simp only [adjustedChances]
    split_ifs <;> simp_all

/-- Claim C7 (amended): in WeaponSystem._calculate_rarity of text_game.py,
a level-gated tier (legendary below level 10, mythic below level 15)
receives weight zero regardless of rarity boost and equipped-weapon
redistribution, and a level-1 zero-boost roll can never resolve to
legendary or mythic for any random draw; text_gameV3.py's
_calculate_rarity_by_level has no such gates (see the counterexample). -/
theorem gated_tiers_zero_weight (level boost : ℕ) (equipped : Option Rarity) :
    (level < 10 → normalizedChances level boost equipped .legendary = 0) ∧
    (level < 15 → normalizedChances level boost equipped .mythic = 0) ∧
    (∀ rand : ℤ, 0 < rand → calculateRarity 1 0 equipped rand ≠ .legendary ∧
      calculateRarity 1 0 equipped rand ≠ .mythic) := by
  refine ⟨?_, ?_, ?_⟩
  · intro h10
    unfold normalizedChances
    rw [if_neg (by simp)]
    exact adjusted_legendary_zero level boost equipped h10
  · intro h15
    unfold normalizedChances
    rw [if_neg (by simp)]
    exact adjusted_mythic_zero level boost equipped h15
  · intro rand hrand
    apply sample_not_gated _ _ hrand
    · unfold normalizedChances
      rw [if_neg (by simp)]
      exact adjusted_legendary_zero 1 0 equipped (by omega)
    · unfold normalizedChances
      rw [if_neg (by simp)]
      exact adjusted_mythic_zero 1 0 equipped (by omega)

/-- Witness for C7 (amended) at level 5, boost 7, no equipped weapon, and
the draw 93. -/
theorem gated_tiers_zero_weight_witness :
    normalizedChances 5 7 none .legendary = 0 ∧
    normalizedChances 5 7 none .mythic = 0 ∧
    (calculateRarity 1 0 none 93 ≠ .legendary ∧ calculateRarity 1 0 none 93 ≠ .mythic) :=
  ⟨(gated_tiers_zero_weight 5 7 none).1 (by decide),
   (gated_tiers_zero_weight 5 7 none).2.1 (by decide),
   (gated_tiers_zero_weight 5 7 none).2.2 93 (by decide)⟩

/-- Counterexample to C7 as stated: in text_gameV3.py's
_calculate_rarity_by_level, at level 1 with zero boost the legendary tier
has weight 2 (there is no level gate), so the draw 99 resolves to
legendary. -/
theorem level_one_rolls_legendary_v3 :
    calculateRarityV3 1 0 99 = .legendary ∧
    normalizedChancesV3 1 0 .legendary = 2 := by
  constructor
  · decide
  · decide

/-- Counterexample to C4 as stated: text_game.py's Game.load_game, given a
document whose version tag "1.0.0" differs from the running version,
reports success and takes the full player state from the document (it only
prints a warning); it does not fall back to "no save". -/
theorem version_mismatch_loads_anyway :
    (loadGame (⟨"1.0.0", 42⟩ : SaveDoc ℕ)).success = true ∧
    (loadGame (⟨"1.0.0", 42⟩ : SaveDoc ℕ)).loadedPlayer = some 42 ∧
    "1.0.0" ≠ gameVersion := by
  refine ⟨rfl, rfl, ?_⟩
  decide

/-- Claim C4 (amended): text_gameV3.py's Game.load_game rejects every save
document whose version tag differs from the running version, reporting
failure and taking no state at all from the document; text_game.py's
Game.load_game instead only warns on the mismatch and loads the document
fully (see the counterexample). -/
theorem load_rejects_version_mismatch_v3 {P : Type} (doc : SaveDoc P)
    (h : doc.version ≠ gameVersionV3) :
    (loadGameV3 doc).success = false ∧ (loadGameV3 doc).loadedPlayer = none := by
  unfold loadGameV3
  rw [if_pos h]
  exact ⟨rfl, rfl⟩

/-- Witness for C4 (amended) on a concrete mismatched document. -/
theorem load_rejects_version_mismatch_v3_witness :
    (loadGameV3 (⟨"1.0.0", 42⟩ : SaveDoc ℕ)).success = false ∧
    (loadGameV3 (⟨"1.0.0", 42⟩ : SaveDoc ℕ)).loadedPlayer = none :=
  load_rejects_version_mismatch_v3 ⟨"1.0.0", 42⟩ (by decide)

/-- Counterexample to C6 as stated: for an uncommon weapon (multiplier 1.3)
at level 1 with base draw 10 (inside [base_min, base_max] = [10, 14]), the
exact product is 15.6; the code's `int(...)` yields 15 while the spec's
`round(...)` yields 16. -/
theorem weapon_damage_not_rounded :
    weaponDamage .uncommon 1 10 = 15 ∧
    specWeaponDamageRound .uncommon 1 10 = 16 ∧
    weaponDamage .uncommon 1 10 ≠ specWeaponDamageRound .uncommon 1 10 ∧
    baseMin .uncommon ≤ 10 ∧ 10 ≤ baseMax .uncommon := by
  refine ⟨?_, ?_, ?_, by decide, by decide⟩ <;>
    norm_num [weaponDamage, specWeaponDamageRound, rarityMultiplier, multTimes10,
      round_eq, Int.floor_eq_iff]

/-- Claim C6 (amended): for every generated (non-ordinance) weapon, given
the resolved tier, the player level, and the base draw `u`, the damage
equals `(u + level*2) * multiplier` truncated toward zero (the floor, since
the value is nonnegative) - not rounded to the nearest integer: written
with the multiplier as `multTimes10 r / 10`, the damage is the integer
division `((u + level*2) * multTimes10 r) / 10`. -/
theorem weapon_damage_eq_truncated (r : Rarity) (level u : ℕ) :
    weaponDamage r level u = ((((u + level * 2) * multTimes10 r) / 10 : ℕ) : ℤ) := by
  unfold weaponDamage rarityMultiplier
  have hcast : ((u : ℚ) + level * 2) * ((multTimes10 r : ℚ) / 10) =
      (((u + level * 2) * multTimes10 r : ℕ) : ℚ) / ((10 : ℕ) : ℚ) := by
    push_cast
    ring
  rw [hcast, ← Int.natCast_floor_eq_floor (by positivity), Nat.floor_div_eq_div]

/-- Claim C8: if the equipped weapon is the ordinance (instant-kill) weapon
with exactly one use remaining, one attack deals the fixed 99999 damage,
consumes the last use, and leaves the player unarmed immediately after. -/
theorem ordinance_exhaustion (p : CombatPlayer) (w : Weapon) (fistRoll strengthRoll : ℕ)
    (hw : p.weapon = some w) (hs : w.special = true) (hu : w.usesRemaining = 1) :
    calculatePlayerDamage p fistRoll strengthRoll = (99999, { p with weapon := none }) := by
  unfold calculatePlayerDamage
  rw [hw]
  simp [hs, hu]

/-- Witness for C8 on a concrete player holding a one-use Golden Gun. -/
theorem ordinance_exhaustion_witness :
    calculatePlayerDamage ⟨some ⟨99999, .divine, true, 1⟩, 12⟩ 3 2 =
      (99999, (⟨none, 12⟩ : CombatPlayer)) :=
  ordinance_exhaustion ⟨some ⟨99999, .divine, true, 1⟩, 12⟩ ⟨99999, .divine, true, 1⟩
    3 2 rfl rfl rfl

/-- Counterexample to C9 as stated: in text_gameV3.py's _boss_turn, on a
defended normal-attack turn (turn 1, boss above half health) with base
damage 10, bonus roll 1 and agility roll 10, the code deals
`(10 + 1 - 10) // 2 = 0`, while the claim's floor-then-halve formula gives
`max(5, 1) // 2 = 2`: the minimum-damage floor is skipped when defending. -/
theorem v3_defend_skips_floor :
    bossTurnV3 10 5 200 150 1 true 1 10 = (.normal, 0) ∧
    (0 : ℤ) ≠ Int.fdiv (max 5 (10 + 1 - 10)) 2 := by
  refine ⟨?_, by decide⟩
  decide

/-- Claim C9 (amended): in text_game.py's fight_boss, on every boss turn
that uses the normal attack the damage is the boss base damage plus the
bonus roll minus the agility roll, floored at MIN_BOSS_DAMAGE = 5, and the
floored value is then halved by integer division when the player defended -
the floor applies whether or not the player defended; text_gameV3.py skips
the floor when defending (see the counterexample). -/
theorem boss_normal_damage_floored (dmg specialBonus : ℤ) (s : BossTurnState)
    (playerDamage : ℤ) (defend : Bool) (bonusRoll agilityRoll : ℤ)
    (bossDmg : ℤ) (s' : BossTurnState)
    (h : fightBossTurn dmg specialBonus s playerDamage defend bonusRoll agilityRoll =
      some (.normal, bossDmg, s')) :
    bossDmg = (if defend then Int.fdiv (max 5 (dmg + bonusRoll - agilityRoll)) 2
      else max 5 (dmg + bonusRoll - agilityRoll)) := by
  unfold fightBossTurn at h
  dsimp only at h
  split at h
  · cases h
  · unfold bossPhase calculateEnemyDamage at h
    split at h
    · simp only [Option.some.injEq, Prod.mk.injEq] at h
      exact absurd h.1 (by simp)
    · simp only [Option.some.injEq, Prod.mk.injEq] at h
      obtain ⟨_, h2, _⟩ := h
      rw [← h2]
      simp

/-- Witness for C9 (amended): boss base damage 10, bonus roll 1, agility
roll 10, defending; the dealt damage 2 equals the floored-then-halved
value. -/
theorem boss_normal_damage_floored_witness :
    (2 : ℤ) = (if true then Int.fdiv (max 5 ((10 : ℤ) + 1 - 10)) 2
      else max 5 ((10 : ℤ) + 1 - 10)) :=
  boss_normal_damage_floored 10 5 ⟨100, 200, 50, 1⟩ 10 true 1 10 2 ⟨90, 200, 48, 2⟩ rfl

/-- Claim C10: applying any healing or mana-restoring consumable of
HEALING_ITEMS to a player whose health and mana are within their maxima
keeps both within their maxima afterwards (the restored amount is capped at
the remaining headroom), and the 'full' heal sets health to exactly
max_health. -/
theorem healing_preserves_bounds (name : String) (e : HealingEffect)
    (hmem : (name, e) ∈ healingItems) (p p' : PlayerVitals)
    (hh : p.health ≤ p.maxHealth) (hm : p.mana ≤ p.maxMana)
    (happly : applyHealingEffect p e = some p') :
    p'.health ≤ p'.maxHealth ∧ p'.mana ≤ p'.maxMana ∧
      (e.heal = .full → p'.health = p.maxHealth) := by
  simp only [healingItems, List.mem_cons, List.not_mem_nil, or_false, Prod.mk.injEq] at hmem
  rcases hmem with ⟨_, rfl⟩ | ⟨_, rfl⟩ | ⟨_, rfl⟩ | ⟨_, rfl⟩ | ⟨_, rfl⟩ | ⟨_, rfl⟩ | ⟨_, rfl⟩ <;>
    · simp only [applyHealingEffect, Option.some.injEq] at happly
      subst happly
      refine ⟨?_, ?_, ?_⟩ <;> simp_all <;> omega

/-- Witness for C10: a health potion at 50/100 health restores 30 and stays
within bounds. -/
theorem healing_preserves_bounds_witness :
    (⟨80, 100, 10, 40⟩ : PlayerVitals).health ≤ (⟨80, 100, 10, 40⟩ : PlayerVitals).maxHealth ∧
    (⟨80, 100, 10, 40⟩ : PlayerVitals).mana ≤ (⟨80, 100, 10, 40⟩ : PlayerVitals).maxMana ∧
    ((⟨EffectType.health, HealSpec.amount 30⟩ : HealingEffect).heal = .full →
      (⟨80, 100, 10, 40⟩ : PlayerVitals).health = (⟨50, 100, 10, 40⟩ : PlayerVitals).maxHealth) :=
  healing_preserves_bounds "health potion" ⟨.health, .amount 30⟩ (by decide)
    ⟨50, 100, 10, 40⟩ ⟨80, 100, 10, 40⟩ (by decide) (by decide) (by decide)

end TextAdventure
